import Mathlib

/-!
Shallow embedding of the chaoschain consensus kernel and gateway.

The embedded functions follow the Rust source:
* `crates/consensus/src/manager.rs` — `ConsensusManager` and its methods.
* `crates/api/src/lib.rs` — `RegisteredAgent`, `register_agent`,
  `get_agent_from_request`, the vote-stake computation inside `submit_vote`,
  and the `ApiError → HTTP status` mapping.

Modelling conventions:
* `u64` values are `Nat`; `saturating_add` is `satAdd` (clamp at `2^64 - 1`)
  and the unchecked `+=` is `wrapAdd` (reduction mod `2^64`).
* The `f64` field `finality_threshold` is modelled as an exact rational
  `finality_num / finality_den`; the cast `(total_stake as f64 * t) as u64`
  becomes the exact floor `total_stake * finality_num / finality_den`
  (Nat division).  Registry performance scores (`f64`) are modelled as `ℚ`
  with `as u64` modelled as floor-to-Nat.
* `HashMap` is an association list mutated by `mapInsert` (replace the first
  binding in place); iteration order only feeds commutative sums.
* Randomness is an explicit parameter: `add_vote` takes the value drawn by
  `gen_range(1..10)` and `start_new_round` takes the value drawn by
  `gen_range(0..total)`.  `gen_range` on an empty range panics in `rand`;
  that panic is the `Except.error RandPanic.emptyRange` outcome.
* The `async` methods acquire all locks for the duration of an operation, so
  each method is embedded as a pure function from state to result and state.
-/

deriving instance DecidableEq for Except

namespace ChaosChain

/-- Largest `u64` value. -/
def u64Max : Nat := 2 ^ 64 - 1

/-- Number of `u64` values; modulus for wrapping arithmetic. -/
def u64Lim : Nat := 2 ^ 64

/-- `u64::saturating_add`. -/
def satAdd (a b : Nat) : Nat := min (a + b) u64Max

/-- Unchecked `+=` on `u64` (two's-complement wrap on overflow). -/
def wrapAdd (a b : Nat) : Nat := (a + b) % u64Lim

/-- Association-list lookup, mirroring `HashMap::get`. -/
def mapLookup {α : Type} : List (String × α) → String → Option α
  | [], _ => none
  | (k, v) :: rest, key => if k = key then some v else mapLookup rest key

/-- Association-list insert, mirroring `HashMap::insert`: the first binding
of the key is replaced in place, otherwise the binding is appended. -/
def mapInsert {α : Type} : List (String × α) → String → α → List (String × α)
  | [], key, val => [(key, val)]
  | (k, v) :: rest, key, val =>
      if k = key then (key, val) :: rest else (k, v) :: mapInsert rest key val

/-- Modelled from the spec: `chaoschain_core::Block` is declared in a crate
whose source is not part of the repository snapshot; the spec gives the
record {height, parent_hash, transactions, state_root, proposer,
proposer_sig, drama_level, producer_mood} with a hash over every field
except `proposer_sig`.  Hashes and signatures are abstracted to `Nat`. -/
structure Block where
  height : Nat
  parent_hash : Nat
  transactions : List Nat
  state_root : Nat
  proposer : String
  drama_level : Nat
  producer_mood : String
  proposer_sig : Nat
deriving Repr, DecidableEq

/-- Modelled from the spec: the block hash is a deterministic function of all
fields except `proposer_sig`; it is modelled as the canonical tuple of those
fields (deterministic and signature-independent). -/
abbrev BlockHash := Nat × Nat × List Nat × Nat × String × Nat × String

/-- Modelled from the spec: `Block::hash()` (defined in the missing core
crate) — deterministic over all fields except `proposer_sig`. -/
def Block.hash (b : Block) : BlockHash :=
  (b.height, b.parent_hash, b.transactions, b.state_root, b.proposer,
   b.drama_level, b.producer_mood)

/-- `chaoschain_consensus::Vote`: the declaring `lib.rs` is missing from the
snapshot; the fields are those constructed at every call site in the source
(`agent_id`, `block_hash`, `approve`, `reason`, `meme_url`, `signature`). -/
structure Vote where
  agent_id : String
  block_hash : BlockHash
  approve : Bool
  reason : String
  meme_url : Option String
  signature : Nat
deriving Repr, DecidableEq

/-- `chaoschain_consensus::Error`: its declaration is in the missing
`lib.rs`.  `internal` and `insufficientStake` are the variants the source
constructs; `invalidPhase` and `noValidators` are modelled from the spec's
error taxonomy so that claims about them are statable — the embedded engine
never produces them, exactly as the source never constructs them. -/
inductive Error where
  | internal : String → Error
  | insufficientStake : Error
  | invalidPhase : Error
  | noValidators : Error
deriving Repr, DecidableEq

/-- State of `ConsensusManager` (manager.rs lines 10–23).  The `f64`
`finality_threshold` is carried as the exact rational
`finality_num / finality_den`. -/
structure ConsensusManager where
  current_block : Option Block
  votes : List (String × Vote)
  total_stake : Nat
  finality_num : Nat
  finality_den : Nat
  current_proposer : Option String
  validators_stakes : List (String × Nat)
deriving Repr, DecidableEq

namespace ConsensusManager

/-- `ConsensusManager::new` (manager.rs 26–35): empty round state, caller
supplied initial `total_stake` and finality ratio. -/
def new (total_stake : Nat) (finality_num finality_den : Nat) : ConsensusManager :=
  { current_block := none
    current_proposer := none
    votes := []
    validators_stakes := []
    total_stake := total_stake
    finality_num := finality_num
    finality_den := finality_den }

/-- `start_voting_round` (manager.rs 38–43): store the block, clear votes. -/
def start_voting_round (m : ConsensusManager) (block : Block) : ConsensusManager :=
  { m with current_block := some block, votes := [] }

/-- The accumulation loop of `check_consensus` (manager.rs 86–92): iterate
the vote map, and for each approving vote whose key is present in
`validators_stakes` add that registered stake with `saturating_add`. -/
def approveStakeLoop (stakes : List (String × Nat)) :
    Nat → List (String × Vote) → Nat
  | acc, [] => acc
  | acc, (validator, vote) :: rest =>
      approveStakeLoop stakes
        (if vote.approve then
          match mapLookup stakes validator with
          | some s => satAdd acc s
          | none => acc
        else acc) rest

/-- `(total_stake as f64 * finality_threshold) as u64` (manager.rs 94),
modelled as the exact rational floor `total * num / den`. -/
def thresholdStake (m : ConsensusManager) : Nat :=
  m.total_stake * m.finality_num / m.finality_den

/-- `check_consensus` (manager.rs 83–101): `Ok(true)` when the accumulated
approving stake reaches the threshold, otherwise `Err(InsufficientStake)`
(the function never returns `Ok(false)`). -/
def check_consensus (m : ConsensusManager) (votes : List (String × Vote)) :
    Except Error Bool :=
  let approve_stake := approveStakeLoop m.validators_stakes 0 votes
  if thresholdStake m ≤ approve_stake then Except.ok true
  else Except.error Error.insufficientStake

/-- `award_proposer` (manager.rs 156–167): saturating-add the reward to the
proposer's stake entry when present, then unconditionally `total += reward`. -/
def award_proposer (m : ConsensusManager) (proposer_id : String) (reward : Nat) :
    ConsensusManager :=
  let stakes' :=
    match mapLookup m.validators_stakes proposer_id with
    | some stake => mapInsert m.validators_stakes proposer_id (satAdd stake reward)
    | none => m.validators_stakes
  { m with validators_stakes := stakes', total_stake := wrapAdd m.total_stake reward }

/-- `add_vote` (manager.rs 46–80).  `stake` is the caller-supplied stake
argument (unused by the source body); `reward` is the value drawn by
`rand::thread_rng().gen_range(1..10)` on the consensus path. -/
def add_vote (m : ConsensusManager) (vote : Vote) (stake : Nat) (reward : Nat) :
    Except Error Bool × ConsensusManager :=
  match m.current_block with
  | none => (Except.error (Error.internal "No active voting round"), m)
  | some block =>
      if vote.block_hash ≠ block.hash then
        (Except.error (Error.internal "Vote for wrong block"), m)
      else
        let votes' := mapInsert m.votes vote.agent_id vote
        let m' := { m with votes := votes' }
        let consensus_result := check_consensus m' votes'
        match consensus_result with
        | Except.ok true =>
            let m'' :=
              match m'.current_proposer with
              | some proposer => award_proposer m' proposer reward
              | none => m'
            (Except.ok true, m'')
        | r => (r, m')

/-- `register_validator` (manager.rs 103–110): insert the binding and
unconditionally `total += stake`. -/
def register_validator (m : ConsensusManager) (id : String) (stake : Nat) :
    ConsensusManager :=
  { m with validators_stakes := mapInsert m.validators_stakes id stake
           total_stake := wrapAdd m.total_stake stake }

/-- `stakes.values().sum()` in `start_new_round` (manager.rs 114). -/
def stakesSum (stakes : List (String × Nat)) : Nat :=
  (stakes.map (fun p => p.2)).sum

/-- The prefix-sum scan of `start_new_round` (manager.rs 121–127). -/
def selectLoop : List (String × Nat) → Nat → Option String
  | [], _ => none
  | (id, stake) :: rest, pick =>
      if pick < stake then some id else selectLoop rest (pick - stake)

/-- Outcome of `rand`'s `gen_range` on an empty range: a panic. -/
inductive RandPanic where
  | emptyRange : RandPanic
deriving Repr, DecidableEq

/-- `start_new_round` (manager.rs 112–140).  `pick` is the value drawn by
`OsRng.gen_range(0..total)`; when `total = 0` that call panics (`rand`
refuses an empty range) before any state is written. -/
def start_new_round (m : ConsensusManager) (pick : Nat) :
    Except RandPanic ConsensusManager :=
  let total := stakesSum m.validators_stakes
  if total = 0 then Except.error RandPanic.emptyRange
  else
    let selected := selectLoop m.validators_stakes pick
    Except.ok { m with current_proposer := selected, votes := [], current_block := none }

/-- `set_proposal` (manager.rs 142–154). -/
def set_proposal (m : ConsensusManager) (block : Block) (proposer_id : String) :
    Except Error ConsensusManager :=
  if m.current_proposer ≠ some proposer_id then
    Except.error (Error.internal "Only the selected propsoer can set a new block.")
  else
    Except.ok { m with current_block := some block }

end ConsensusManager

/-- Support of `rand::thread_rng().gen_range(1..10)` (manager.rs 72): the
half-open range, so values `1..=9`. -/
def rewardSupport (r : Nat) : Prop := 1 ≤ r ∧ r < 10

instance : DecidablePred rewardSupport := fun r =>
  inferInstanceAs (Decidable (1 ≤ r ∧ r < 10))

/-- Mathematical reformulation of one vote's contribution in
`check_consensus`: an approving vote contributes the voter's registered
stake (zero when the voter is absent from the table). -/
def voteWeight (stakes : List (String × Nat)) (entry : String × Vote) : Nat :=
  if entry.2.approve then (mapLookup stakes entry.1).getD 0 else 0

/-- The approving stake as the plain sum of contributions — the quantity the
spec's finality rule speaks about.  `approveStakeLoop` computes the same
value as long as the sum stays within `u64`. -/
def sumApproveStake (stakes : List (String × Nat)) (votes : List (String × Vote)) : Nat :=
  (votes.map (voteWeight stakes)).sum

/-- Model of Rust's `x as u64` on a non-negative `f64`, over the rational
model: floor, clamped below at zero. -/
def ratFloorToNat (q : ℚ) : Nat := (⌊q⌋).toNat

/-- `RegisteredAgent` (api/lib.rs 68–79): the fields the embedded operations
read or write.  `performance_score` (`f64`) is modelled as `ℚ`; the wall
clock `last_seen`, the capability record and the optional HTTP client are
not modelled (no embedded claim reads them). -/
structure RegisteredAgent where
  id : String
  stake : Nat
  performance_score : ℚ
  total_blocks_produced : Nat
  total_votes_submitted : Nat
  successful_validations : Nat
deriving Repr, DecidableEq

/-- `PERFORMANCE_WEIGHT` (api/lib.rs 101). -/
def PERFORMANCE_WEIGHT : ℚ := 1 / 10

namespace RegisteredAgent

/-- `RegisteredAgent::update_performance` (api/lib.rs 100–109):
exponential moving average of successes, plus counters. -/
def update_performance (a : RegisteredAgent) (success : Bool) : RegisteredAgent :=
  let a' :=
    if success then
      { a with
        performance_score := (1 - PERFORMANCE_WEIGHT) * a.performance_score + PERFORMANCE_WEIGHT
        successful_validations := a.successful_validations + 1 }
    else
      { a with performance_score := (1 - PERFORMANCE_WEIGHT) * a.performance_score }
  { a' with total_votes_submitted := a'.total_votes_submitted + 1 }

/-- `RegisteredAgent::get_effective_stake` (api/lib.rs 111–113):
`(stake as f64 * performance_score) as u64`. -/
def get_effective_stake (a : RegisteredAgent) : Nat :=
  ratFloorToNat ((a.stake : ℚ) * a.performance_score)

end RegisteredAgent

/-- The stake computation of the validator path of `submit_vote`
(api/lib.rs 346–355): the registry's effective stake multiplied by the
alliance bonus (`1.5` when the social graph says the voter and the block
producer are allied) and by the drama multiplier
`min(drama_score + 1.0, 2.0)`, floored back to `u64`.  `allied` and
`drama_score` abstract the social-graph lookups `are_allied` and
`get_drama_score`. -/
def gatewayVoteStake (effective : Nat) (allied : Bool) (drama_score : ℚ) : Nat :=
  let alliance_bonus : ℚ := if allied then 3 / 2 else 1
  let drama_multiplier : ℚ := min (drama_score + 1) 2
  ratFloorToNat ((effective : ℚ) * alliance_bonus * drama_multiplier)

/-- `ApiError` (api/lib.rs 37–45). -/
inductive ApiError where
  | authenticationFailed : ApiError
  | invalidRequest : String → ApiError
  | internal : String → ApiError
deriving Repr, DecidableEq

/-- The HTTP status assigned by `IntoResponse for ApiError`
(api/lib.rs 47–57). -/
def ApiError.status : ApiError → Nat
  | ApiError.authenticationFailed => 401
  | ApiError.invalidRequest _ => 400
  | ApiError.internal _ => 500

/-- Modelled from the spec: the `Display` rendering of the consensus `Error`
(derived by `thiserror` in the missing consensus `lib.rs`), used by
`e.to_string()` at the gateway.  Only the `internal` payload is observable
in the source; the concrete strings carry no weight in any claim. -/
def errString : Error → String
  | Error.internal s => s
  | Error.insufficientStake => "Insufficient stake for consensus"
  | Error.invalidPhase => "Invalid phase"
  | Error.noValidators => "No validators"

/-- The engine-call tail of `submit_vote` (api/lib.rs 367–378): forward the
vote to `add_vote`, mapping an engine error to `ApiError::Internal` (the
`?` operator), and answer `200 OK` when the call returns `Ok`. -/
def submitVoteEngineCall (m : ConsensusManager) (vote : Vote)
    (stake reward : Nat) : Except ApiError Nat × ConsensusManager :=
  let res := m.add_vote vote stake reward
  match res.1 with
  | Except.ok _ => (Except.ok 200, res.2)
  | Except.error e => (Except.error (ApiError.internal (errString e)), res.2)

/-- The HTTP status the gateway's vote endpoint produces for the engine
call: the `200` of the success path, or the status of the mapped error. -/
def submitVoteHttpStatus (m : ConsensusManager) (vote : Vote)
    (stake reward : Nat) : Nat :=
  match (submitVoteEngineCall m vote stake reward).1 with
  | Except.ok code => code
  | Except.error e => e.status

/-- `Claims` (api/lib.rs 60–65): the JWT payload.  The agent type is not
read by any embedded operation and is omitted. -/
structure Claims where
  agent_id : String
  exp : Nat
deriving Repr, DecidableEq

/-- Symbolic model of a signed JWT: the payload together with the key that
signed it.  A token can only be produced through `encodeToken`, which
models unforgeability of the HMAC signature. -/
structure Token where
  claims : Claims
  key : String
deriving Repr, DecidableEq

/-- `jsonwebtoken::encode` with secret `key` (symbolic). -/
def encodeToken (claims : Claims) (key : String) : Token :=
  { claims := claims, key := key }

/-- `jsonwebtoken::decode::<Claims>` with `Validation::default()` at wall
time `now` (symbolic): the signature check succeeds exactly when the token
was signed with the same secret, and default validation rejects an expired
`exp`.  Failures are mapped to `AuthenticationFailed` as at both call
sites. -/
def decodeToken (token : Token) (key : String) (now : Nat) : Except ApiError Claims :=
  if token.key = key then
    if now < token.claims.exp then Except.ok token.claims
    else Except.error ApiError.authenticationFailed
  else Except.error ApiError.authenticationFailed

/-- `ApiState` (api/lib.rs 117–124): the agent map and the JWT secret; the
consensus handle, event channel, social graph and state store are passed to
the embedded operations explicitly where needed. -/
structure ApiState where
  agents : List (String × RegisteredAgent)
  jwt_key : String
deriving Repr, DecidableEq

/-- `RegistrationResponse` (agent-sdk): agent id, bearer token, status. -/
structure RegistrationResponse where
  agent_id : String
  auth_token : Token
  status : String
deriving Repr, DecidableEq

/-- `register_agent` (api/lib.rs 196–237): allocate an id (`Uuid::new_v4`,
modelled by the `freshId` parameter), sign a JWT whose claims carry that id
and a 24-hour expiry, store the agent record with initial stake 100 and
performance 1.0, and return id and token. -/
def register_agent (st : ApiState) (freshId : String) (now : Nat) :
    RegistrationResponse × ApiState :=
  let claims : Claims := { agent_id := freshId, exp := now + 24 * 3600 }
  let token := encodeToken claims st.jwt_key
  let agent : RegisteredAgent :=
    { id := freshId
      stake := 100
      performance_score := 1
      total_blocks_produced := 0
      total_votes_submitted := 0
      successful_validations := 0 }
  ({ agent_id := freshId, auth_token := token, status := "registered" },
   { st with agents := mapInsert st.agents freshId agent })

/-- `get_agent_from_request` (api/lib.rs 240–254): decode the bearer token
with the server secret and look the embedded agent id up in the agent map;
any failure is `AuthenticationFailed`. -/
def get_agent_from_request (st : ApiState) (token : Token) (now : Nat) :
    Except ApiError RegisteredAgent :=
  match decodeToken token st.jwt_key now with
  | Except.error e => Except.error e
  | Except.ok claims =>
      match mapLookup st.agents claims.agent_id with
      | some a => Except.ok a
      | none => Except.error ApiError.authenticationFailed

/-- The agent map keeps each record under its own id: every binding `(k, a)`
has `a.id = k`.  `register_agent` stores records this way. -/
def agentsInv (st : ApiState) : Prop :=
  ∀ k a, mapLookup st.agents k = some a → a.id = k

/-- The cached-total-stake invariant the spec asserts: the engine's
`total_stake` equals the sum of the registered validators' stakes. -/
def stakeInv (m : ConsensusManager) : Prop :=
  m.total_stake = ConsensusManager.stakesSum m.validators_stakes

instance (m : ConsensusManager) : Decidable (stakeInv m) :=
  inferInstanceAs
    (Decidable (m.total_stake = ConsensusManager.stakesSum m.validators_stakes))

/-- Unwrap an `Except`, with a default for the error case (used to thread
concrete scenario states through fallible engine operations). -/
def exceptD {ε α : Type} (x : Except ε α) (d : α) : α :=
  match x with
  | Except.ok a => a
  | Except.error _ => d

/-- A concrete block used by the concrete scenarios. -/
def sampleBlock : Block :=
  { height := 1, parent_hash := 0, transactions := [], state_root := 0,
    proposer := "p", drama_level := 3, producer_mood := "chaotic", proposer_sig := 0 }

/-- Validator `v` approves `sampleBlock`. -/
def voteV : Vote :=
  { agent_id := "v", block_hash := sampleBlock.hash, approve := true,
    reason := "ok", meme_url := none, signature := 0 }

/-- Validator `v` rejects `sampleBlock` (the flip of `voteV`). -/
def rejectVoteV : Vote :=
  { agent_id := "v", block_hash := sampleBlock.hash, approve := false,
    reason := "no", meme_url := none, signature := 0 }

/-- Low-stake validator `w` approves `sampleBlock`. -/
def voteW : Vote :=
  { agent_id := "w", block_hash := sampleBlock.hash, approve := true,
    reason := "meh", meme_url := none, signature := 0 }

/-- Scenario: engine built with initial total 0 and ratio 1/2, validators
`p` (stake 50) and `v` (stake 100) registered. -/
def mC3base : ConsensusManager :=
  ((ConsensusManager.new 0 1 2).register_validator "p" 50).register_validator "v" 100

/-- Scenario: a round opened on `mC3base` with draw 0, selecting `p`. -/
def mC3round : ConsensusManager := exceptD (mC3base.start_new_round 0) mC3base

/-- Scenario: proposer `p` proposed `sampleBlock`. -/
def mC3voting : ConsensusManager := exceptD (mC3round.set_proposal sampleBlock "p") mC3round

/-- Scenario: `v`'s approval reached consensus (100 ≥ 75) and `p` was
awarded reward 5 — the state right after `ConsensusReached`. -/
def mC3final : ConsensusManager := (mC3voting.add_vote voteV 77 5).2

/-- Scenario: engine with ratio 2/3, validators `v` (stake 100) and `w`
(stake 10), total 110, threshold ⌊110·2/3⌋ = 73, voting on `sampleBlock`. -/
def mC2 : ConsensusManager :=
  ((((ConsensusManager.new 0 2 3).register_validator "v" 100).register_validator
      "w" 10).start_voting_round sampleBlock)

/-- The registry record `register_agent` creates for agent `v`:
stake 100, performance 1.0. -/
def agentVfresh : RegisteredAgent :=
  { id := "v", stake := 100, performance_score := 1, total_blocks_produced := 0,
    total_votes_submitted := 0, successful_validations := 0 }

/-- Agent `v` after one failed validation: performance 0.9, effective
stake ⌊100 · 0.9⌋ = 90. -/
def agentVafterMiss : RegisteredAgent := agentVfresh.update_performance false

theorem satAdd_of_le {a b : Nat} (h : a + b ≤ u64Max) : satAdd a b = a + b :=
  min_eq_left h

theorem wrapAdd_of_lt {a b : Nat} (h : a + b < u64Lim) : wrapAdd a b = a + b :=
  Nat.mod_eq_of_lt h

theorem mapLookup_mapInsert_self {α : Type} (m : List (String × α)) (k : String) (v : α) :
    mapLookup (mapInsert m k v) k = some v := by
  induction m with
  | nil => simp [mapInsert, mapLookup]
  | cons hd tl ih =>
      obtain ⟨ka, va⟩ := hd
      by_cases h : ka = k
      · simp [mapInsert, h, mapLookup]
      · simp [mapInsert, h, mapLookup, ih]

theorem mapLookup_mapInsert_ne {α : Type} (m : List (String × α)) (k k' : String) (v : α)
    (h : k' ≠ k) : mapLookup (mapInsert m k v) k' = mapLookup m k' := by
  induction m with
  | nil => simp [mapInsert, mapLookup, Ne.symm h]
  | cons hd tl ih =>
      obtain ⟨ka, va⟩ := hd
      by_cases hk : ka = k
      · subst hk
        simp [mapInsert, mapLookup, Ne.symm h]
      · simp [mapInsert, mapLookup, hk, ih]

theorem mapInsert_lookup_self {α : Type} (m : List (String × α)) (k : String) (v : α)
    (h : mapLookup m k = some v) : mapInsert m k v = m := by
  induction m with
  | nil => simp [mapLookup] at h
  | cons hd tl ih =>
      obtain ⟨ka, va⟩ := hd
      by_cases hk : ka = k
      · subst hk
        simp [mapLookup] at h
        simp [mapInsert, h]
      · simp [mapLookup, hk] at h
        simp [mapInsert, hk, ih h]

theorem sumApproveStake_cons (stakes : List (String × Nat)) (hd : String × Vote)
    (tl : List (String × Vote)) :
    sumApproveStake stakes (hd :: tl) = voteWeight stakes hd + sumApproveStake stakes tl := by
  simp [sumApproveStake]

theorem sumApproveStake_mapInsert_some (stakes : List (String × Nat))
    (votes : List (String × Vote)) (k : String) (oldv newv : Vote)
    (h : mapLookup votes k = some oldv) :
    sumApproveStake stakes (mapInsert votes k newv) + voteWeight stakes (k, oldv) =
      sumApproveStake stakes votes + voteWeight stakes (k, newv) := by
  induction votes with
  | nil => simp [mapLookup] at h
  | cons hd tl ih =>
      obtain ⟨ka, va⟩ := hd
      by_cases hk : ka = k
      · subst hk
        simp [mapLookup] at h
        subst h
        simp [mapInsert, sumApproveStake_cons]
        omega
      · simp [mapLookup, hk] at h
        simp only [mapInsert, if_neg hk, sumApproveStake_cons]
        have := ih h
        omega

theorem sumApproveStake_mapInsert_stakeless (stakes : List (String × Nat))
    (votes : List (String × Vote)) (k : String) (v : Vote)
    (hs : mapLookup stakes k = none) :
    sumApproveStake stakes (mapInsert votes k v) = sumApproveStake stakes votes := by
  induction votes with
  | nil => simp [mapInsert, sumApproveStake, voteWeight, hs]
  | cons hd tl ih =>
      obtain ⟨ka, va⟩ := hd
      by_cases hk : ka = k
      · subst hk
        simp [mapInsert, sumApproveStake_cons, voteWeight, hs]
      · simp only [mapInsert, if_neg hk, sumApproveStake_cons, ih]

theorem approveStakeLoop_eq_sum (stakes : List (String × Nat))
    (votes : List (String × Vote)) (acc : Nat)
    (h : acc + sumApproveStake stakes votes ≤ u64Max) :
    ConsensusManager.approveStakeLoop stakes acc votes =
      acc + sumApproveStake stakes votes := by
  induction votes generalizing acc with
  | nil => simp [ConsensusManager.approveStakeLoop, sumApproveStake]
  | cons hd tl ih =>
      obtain ⟨ka, va⟩ := hd
      rw [sumApproveStake_cons] at h ⊢
      by_cases happ : va.approve
      · cases hls : mapLookup stakes ka with
        | none =>
            have hw : voteWeight stakes (ka, va) = 0 := by simp [voteWeight, hls]
            rw [hw] at h ⊢
            simp only [ConsensusManager.approveStakeLoop, happ, if_true, hls]
            rw [ih acc (by omega)]
            omega
        | some s =>
            have hw : voteWeight stakes (ka, va) = s := by simp [voteWeight, happ, hls]
            rw [hw] at h ⊢
            simp only [ConsensusManager.approveStakeLoop, happ, if_true, hls]
            rw [satAdd_of_le (by omega), ih (acc + s) (by omega)]
            omega
      · have hw : voteWeight stakes (ka, va) = 0 := by simp [voteWeight, happ]
        rw [hw] at h ⊢
        simp only [ConsensusManager.approveStakeLoop, happ, Bool.false_eq_true, if_false]
        rw [ih acc (by omega)]
        omega

theorem stakesSum_cons (hd : String × Nat) (tl : List (String × Nat)) :
    ConsensusManager.stakesSum (hd :: tl) = hd.2 + ConsensusManager.stakesSum tl := by
  simp [ConsensusManager.stakesSum]

theorem stakesSum_mapInsert_none (m : List (String × Nat)) (k : String) (v : Nat)
    (h : mapLookup m k = none) :
    ConsensusManager.stakesSum (mapInsert m k v) = ConsensusManager.stakesSum m + v := by
  induction m with
  | nil => simp [mapInsert, ConsensusManager.stakesSum]
  | cons hd tl ih =>
      obtain ⟨ka, va⟩ := hd
      by_cases hk : ka = k
      · simp [mapLookup, hk] at h
      · simp [mapLookup, hk] at h
        simp only [mapInsert, if_neg hk, stakesSum_cons, ih h]
        omega

theorem stakesSum_mapInsert_some (m : List (String × Nat)) (k : String) (v s : Nat)
    (h : mapLookup m k = some s) :
    ConsensusManager.stakesSum (mapInsert m k v) + s = ConsensusManager.stakesSum m + v := by
  induction m with
  | nil => simp [mapLookup] at h
  | cons hd tl ih =>
      obtain ⟨ka, va⟩ := hd
      by_cases hk : ka = k
      · subst hk
        simp [mapLookup] at h
        subst h
        simp [mapInsert, stakesSum_cons]
        omega
      · simp [mapLookup, hk] at h
        simp only [mapInsert, if_neg hk, stakesSum_cons]
        have := ih h
        omega

theorem ratFloorToNat_natCast (n : Nat) : ratFloorToNat (n : ℚ) = n := by
  rw [ratFloorToNat, Int.floor_natCast, Int.toNat_natCast]

theorem decodeToken_ok {t : Token} {k : String} {now : Nat} {c : Claims}
    (h : decodeToken t k now = Except.ok c) : c = t.claims ∧ t.key = k := by
  unfold decodeToken at h
  split_ifs at h with h1 h2
  · exact ⟨(Except.ok.injEq _ _).mp h |>.symm, h1⟩

theorem add_vote_unfold (m : ConsensusManager) (vote : Vote) (stake reward : Nat)
    (block : Block) (hb : m.current_block = some block)
    (hh : vote.block_hash = block.hash) :
    m.add_vote vote stake reward =
      (if ConsensusManager.thresholdStake m ≤
          ConsensusManager.approveStakeLoop m.validators_stakes 0
            (mapInsert m.votes vote.agent_id vote) then
        (Except.ok true,
         match m.current_proposer with
         | some proposer =>
             ConsensusManager.award_proposer
               { m with votes := mapInsert m.votes vote.agent_id vote } proposer reward
         | none => { m with votes := mapInsert m.votes vote.agent_id vote })
      else
        (Except.error Error.insufficientStake,
         { m with votes := mapInsert m.votes vote.agent_id vote })) := by
  by_cases hc : ConsensusManager.thresholdStake m ≤
      ConsensusManager.approveStakeLoop m.validators_stakes 0
        (mapInsert m.votes vote.agent_id vote)
  · rw [ConsensusManager.thresholdStake] at hc
    simp [ConsensusManager.add_vote, ConsensusManager.check_consensus, hb, hh,
      ConsensusManager.thresholdStake, hc]
  · rw [ConsensusManager.thresholdStake] at hc
    simp [ConsensusManager.add_vote, ConsensusManager.check_consensus, hb, hh,
      ConsensusManager.thresholdStake, hc]

/-- Claim C1: for every engine state and every accepted vote (one cast for
the current block), `add_vote` declares consensus — returns `Ok(true)`, the
`ConsensusReached` outcome — if and only if the approving stake, i.e. the
sum over voters in the updated vote set whose vote has `approve = true` of
their registered stake, is at least `floor(total_stake · finality_ratio)`,
where `total_stake` is the engine's cached total and the floor truncates
toward zero (`Nat` division of `total_stake · finality_num` by
`finality_den`). -/
theorem add_vote_consensus_iff (m : ConsensusManager) (vote : Vote)
    (stake reward : Nat) (block : Block)
    (hb : m.current_block = some block) (hh : vote.block_hash = block.hash)
    (hbound : sumApproveStake m.validators_stakes
        (mapInsert m.votes vote.agent_id vote) ≤ u64Max) :
    (m.add_vote vote stake reward).1 = Except.ok true ↔
      m.total_stake * m.finality_num / m.finality_den ≤
        sumApproveStake m.validators_stakes (mapInsert m.votes vote.agent_id vote) := by
  have hloop := approveStakeLoop_eq_sum m.validators_stakes
    (mapInsert m.votes vote.agent_id vote) 0 (by omega)
  rw [Nat.zero_add] at hloop
  rw [add_vote_unfold m vote stake reward block hb hh]
  rw [ConsensusManager.thresholdStake, hloop]
  by_cases hc : m.total_stake * m.finality_num / m.finality_den ≤
      sumApproveStake m.validators_stakes (mapInsert m.votes vote.agent_id vote)
  · simp [hc]
  · simp [hc]

/-- Witness for C1 at the concrete state `mC2` (stakes v = 100, w = 10,
total 110, ratio 2/3, threshold 73): `v`'s approving vote reaches
consensus. -/
theorem add_vote_consensus_iff_witness :
    (mC2.add_vote voteV 7 5).1 = Except.ok true :=
  (add_vote_consensus_iff mC2 voteV 7 5 sampleBlock rfl rfl (by decide)).mpr (by decide)

/-- Claim C2, evaluated at the failing input: at `mC2` (total 110,
threshold 73), the valid sub-threshold approving vote of `w` (stake 10)
does not yield a `Recorded` success — `add_vote` returns
`Err(InsufficientStake)` and the gateway's vote endpoint maps it to
HTTP 500, not 200 — whereas the consensus-reaching vote of `v` gets 200. -/
theorem subthreshold_vote_is_error_http500 :
    (mC2.add_vote voteW 10 5).1 = Except.error Error.insufficientStake ∧
    submitVoteHttpStatus mC2 voteW 10 5 = 500 ∧
    submitVoteHttpStatus mC2 voteV 7 5 = 200 := by
  decide

theorem add_vote_votes_after (m : ConsensusManager) (vote : Vote)
    (stake reward : Nat) (block : Block)
    (hb : m.current_block = some block) (hh : vote.block_hash = block.hash) :
    (m.add_vote vote stake reward).2.votes = mapInsert m.votes vote.agent_id vote := by
  rw [add_vote_unfold m vote stake reward block hb hh]
  by_cases hc : ConsensusManager.thresholdStake m ≤
      ConsensusManager.approveStakeLoop m.validators_stakes 0
        (mapInsert m.votes vote.agent_id vote)
  · simp only [if_pos hc]
    cases m.current_proposer with
    | none => rfl
    | some p => simp [ConsensusManager.award_proposer]
  · simp [hc]

/-- Claim C3, counterexample: `mC3final` is the state right after
`ConsensusReached` (`v`'s 100 reached the threshold 75 and proposer `p`
was rewarded).  A further vote is not rejected with `InvalidPhase`: it is
accepted again (`Ok(true)`), and the state changes — `p` is rewarded a
second time, with the cached total rising by the new reward. -/
theorem post_finality_vote_accepted_cex :
    (mC3final.add_vote voteV 77 7).1 = Except.ok true ∧
    (mC3final.add_vote voteV 77 7).2 ≠ mC3final ∧
    (mC3final.add_vote voteV 77 7).2.total_stake = mC3final.total_stake + 7 := by
  decide

/-- Claim C3, amended: the engine tracks no finality phase.  For every
state whose current block matches the vote — including every state reached
after `ConsensusReached` — `add_vote` never returns `InvalidPhase`, and the
vote is recorded, replacing the voter's earlier vote. -/
theorem add_vote_no_phase_freeze (m : ConsensusManager) (vote : Vote)
    (stake reward : Nat) (block : Block)
    (hb : m.current_block = some block) (hh : vote.block_hash = block.hash) :
    (m.add_vote vote stake reward).1 ≠ Except.error Error.invalidPhase ∧
    (m.add_vote vote stake reward).2.votes = mapInsert m.votes vote.agent_id vote := by
  refine ⟨?_, add_vote_votes_after m vote stake reward block hb hh⟩
  rw [add_vote_unfold m vote stake reward block hb hh]
  by_cases hc : ConsensusManager.thresholdStake m ≤
      ConsensusManager.approveStakeLoop m.validators_stakes 0
        (mapInsert m.votes vote.agent_id vote)
  · simp [hc]
  · simp [hc]

/-- Witness for the amended C3 at the post-consensus state `mC3final`. -/
theorem add_vote_no_phase_freeze_witness :
    (mC3final.add_vote voteV 77 7).1 ≠ Except.error Error.invalidPhase ∧
    (mC3final.add_vote voteV 77 7).2.votes = mapInsert mC3final.votes voteV.agent_id voteV :=
  add_vote_no_phase_freeze mC3final voteV 77 7 sampleBlock rfl rfl

/-- Claim C4, counterexample: the reward is drawn with `gen_range(1..10)`,
whose support is the half-open range `1..=9`; the value 10, which the
claim's inclusive range `[1, 10]` makes drawable, is not in the support. -/
theorem reward_ten_unreachable_cex : ¬ rewardSupport 10 := by decide

/-- Claim C4, amended: when a vote reaches consensus and the proposer is a
registered validator, the proposer's stake is incremented by the drawn
reward and the cached total rises by exactly the same amount, with the
reward in `[1, 9]` (`gen_range(1..10)` is half-open, so 10 is excluded);
no other validator's stake changes. -/
theorem finalization_reward_effects (m : ConsensusManager) (vote : Vote)
    (stake reward : Nat) (block : Block) (p : String) (s : Nat)
    (hb : m.current_block = some block) (hh : vote.block_hash = block.hash)
    (hp : m.current_proposer = some p)
    (hs : mapLookup m.validators_stakes p = some s)
    (hr : rewardSupport reward)
    (hreach : ConsensusManager.thresholdStake m ≤
      ConsensusManager.approveStakeLoop m.validators_stakes 0
        (mapInsert m.votes vote.agent_id vote))
    (hsat : s + reward ≤ u64Max)
    (hwrap : m.total_stake + reward < u64Lim) :
    (m.add_vote vote stake reward).1 = Except.ok true ∧
    (m.add_vote vote stake reward).2.total_stake = m.total_stake + reward ∧
    mapLookup (m.add_vote vote stake reward).2.validators_stakes p = some (s + reward) ∧
    (∀ q, q ≠ p → mapLookup (m.add_vote vote stake reward).2.validators_stakes q =
      mapLookup m.validators_stakes q) ∧
    1 ≤ reward ∧ reward ≤ 9 := by
  rw [add_vote_unfold m vote stake reward block hb hh]
  rw [if_pos hreach, hp]
  obtain ⟨hr1, hr2⟩ := hr
  refine ⟨rfl, ?_, ?_, ?_, hr1, by omega⟩
  · simp [ConsensusManager.award_proposer, hs, wrapAdd_of_lt hwrap]
  · simp [ConsensusManager.award_proposer, hs, satAdd_of_le hsat,
      mapLookup_mapInsert_self]
  · intro q hq
    simp only [ConsensusManager.award_proposer, hs]
    exact mapLookup_mapInsert_ne _ _ _ _ hq

/-- Witness for the amended C4 at `mC3voting`: reward 5, proposer `p` goes
from stake 50 to 55, total from 150 to 155. -/
theorem finalization_reward_effects_witness :
    (mC3voting.add_vote voteV 77 5).1 = Except.ok true ∧
    (mC3voting.add_vote voteV 77 5).2.total_stake = mC3voting.total_stake + 5 ∧
    mapLookup (mC3voting.add_vote voteV 77 5).2.validators_stakes "p" = some 55 :=
  ⟨(finalization_reward_effects mC3voting voteV 77 5 sampleBlock "p" 50 rfl rfl rfl rfl
      (by decide) (by decide) (by decide) (by decide)).1,
   (finalization_reward_effects mC3voting voteV 77 5 sampleBlock "p" 50 rfl rfl rfl rfl
      (by decide) (by decide) (by decide) (by decide)).2.1,
   (finalization_reward_effects mC3voting voteV 77 5 sampleBlock "p" 50 rfl rfl rfl rfl
      (by decide) (by decide) (by decide) (by decide)).2.2.1⟩

/-- Claim C5, evaluated at the failing input: with zero registered
validators the stake sum is 0 and proposer selection reaches
`gen_range(0..0)`, which panics in `rand` (empty ranges are rejected) —
modelled as the `emptyRange` outcome — rather than failing with a
`NoValidators` error; the panic precedes every state write, so neither
proposer nor block is set. -/
theorem start_new_round_zero_stake_panics :
    ConsensusManager.stakesSum (ConsensusManager.new 0 2 3).validators_stakes = 0 ∧
    ConsensusManager.start_new_round (ConsensusManager.new 0 2 3) 0 =
      Except.error ConsensusManager.RandPanic.emptyRange := by
  decide

/-- Claim C6, counterexample: the engine's stake table registers `v` at
100 while `v`'s registry record after one failed validation has
performance 0.9 and effective stake `⌊100 · 0.9⌋ = 90`.  Flipping `v`'s
vote moves the approving stake from 100 to 0 — a change of 100, the
engine-registered stake, not the claimed `effective_stake(v) = 90`. -/
theorem vote_flip_effective_stake_cex :
    sumApproveStake [("v", 100)] [("v", voteV)] = 100 ∧
    sumApproveStake [("v", 100)] (mapInsert [("v", voteV)] "v" rejectVoteV) = 0 ∧
    agentVafterMiss.get_effective_stake = 90 ∧
    (100 : Nat) ≠ 90 := by
  refine ⟨by decide, by decide, ?_, by decide⟩
  have hq : ((agentVafterMiss.stake : ℚ)) * agentVafterMiss.performance_score =
      ((90 : Nat) : ℚ) := by
    simp [agentVafterMiss, agentVfresh, RegisteredAgent.update_performance,
      PERFORMANCE_WEIGHT]
    norm_num
  rw [RegisteredAgent.get_effective_stake, hq, ratFloorToNat_natCast]

/-- Claim C6, amended: within one round, re-submitting a vote with the same
voter and the same approve flag leaves the approving stake unchanged, and
submitting the opposite approve flag changes the approving stake by exactly
the voter's stake registered in the engine's validator table (not by
`floor(stake · performance_score)`). -/
theorem vote_replay_and_flip (m : ConsensusManager) (newv oldv : Vote)
    (stake reward : Nat) (block : Block) (s : Nat)
    (hb : m.current_block = some block) (hh : newv.block_hash = block.hash)
    (hold : mapLookup m.votes newv.agent_id = some oldv)
    (hs : mapLookup m.validators_stakes newv.agent_id = some s) :
    (newv.approve = oldv.approve →
      sumApproveStake m.validators_stakes (m.add_vote newv stake reward).2.votes =
        sumApproveStake m.validators_stakes m.votes) ∧
    (oldv.approve = false → newv.approve = true →
      sumApproveStake m.validators_stakes (m.add_vote newv stake reward).2.votes =
        sumApproveStake m.validators_stakes m.votes + s) ∧
    (oldv.approve = true → newv.approve = false →
      sumApproveStake m.validators_stakes (m.add_vote newv stake reward).2.votes + s =
        sumApproveStake m.validators_stakes m.votes) := by
  rw [add_vote_votes_after m newv stake reward block hb hh]
  have hmain := sumApproveStake_mapInsert_some m.validators_stakes m.votes
    newv.agent_id oldv newv hold
  refine ⟨?_, ?_, ?_⟩
  · intro heq
    have hww : voteWeight m.validators_stakes (newv.agent_id, oldv) =
        voteWeight m.validators_stakes (newv.agent_id, newv) := by
      simp [voteWeight, heq]
    omega
  · intro ho hn
    have h1 : voteWeight m.validators_stakes (newv.agent_id, oldv) = 0 := by
      simp [voteWeight, ho]
    have h2 : voteWeight m.validators_stakes (newv.agent_id, newv) = s := by
      simp [voteWeight, hn, hs]
    omega
  · intro ho hn
    have h1 : voteWeight m.validators_stakes (newv.agent_id, oldv) = s := by
      simp [voteWeight, ho, hs]
    have h2 : voteWeight m.validators_stakes (newv.agent_id, newv) = 0 := by
      simp [voteWeight, hn]
    omega

/-- Witness for the amended C6 at `mC3final`: flipping `v`'s approval to a
rejection lowers the approving stake by `v`'s registered 100. -/
theorem vote_replay_and_flip_witness :
    sumApproveStake mC3final.validators_stakes
        (mC3final.add_vote rejectVoteV 0 5).2.votes + 100 =
      sumApproveStake mC3final.validators_stakes mC3final.votes :=
  (vote_replay_and_flip mC3final rejectVoteV voteV 0 5 sampleBlock 100
      rfl rfl rfl rfl).2.2 rfl rfl

/-- Claim C7, counterexample: for a fresh agent (stake 100, performance
1.0, effective stake 100) that is allied with the block producer, the
gateway passes `⌊100 · 1.5 · 1.0⌋ = 150` into `add_vote` — not the
effective stake 100, contradicting the claim's first half. -/
theorem gateway_stake_multiplier_cex :
    agentVfresh.get_effective_stake = 100 ∧
    gatewayVoteStake agentVfresh.get_effective_stake true 0 = 150 ∧
    gatewayVoteStake agentVfresh.get_effective_stake true 0 ≠
      agentVfresh.get_effective_stake := by
  have h1 : agentVfresh.get_effective_stake = 100 := by
    have hq : ((agentVfresh.stake : ℚ)) * agentVfresh.performance_score =
        ((100 : Nat) : ℚ) := by
      simp [agentVfresh]
    rw [RegisteredAgent.get_effective_stake, hq, ratFloorToNat_natCast]
  have h2 : gatewayVoteStake 100 true 0 = 150 := by
    have hq : ((100 : Nat) : ℚ) * (3 / 2) * min ((0 : ℚ) + 1) 2 =
        ((150 : Nat) : ℚ) := by
      norm_num
    simp only [gatewayVoteStake, if_true]
    rw [hq, ratFloorToNat_natCast]
  refine ⟨h1, ?_, ?_⟩
  · rw [h1, h2]
  · rw [h1, h2]
    decide

/-- Claim C7, amended: the gateway multiplies the effective stake by the
alliance bonus and the drama multiplier before passing it to `add_vote`,
but the engine ignores the stake argument entirely, so no client-controlled
quantity influences the weight a vote contributes to consensus: the call
with the socially adjusted stake is indistinguishable — same outcome, same
post-state — from the call with the bare effective stake. -/
theorem engine_ignores_gateway_multipliers (m : ConsensusManager) (vote : Vote)
    (reward : Nat) (effective : Nat) (allied : Bool) (drama_score : ℚ) :
    m.add_vote vote (gatewayVoteStake effective allied drama_score) reward =
      m.add_vote vote effective reward := rfl

/-- Claim C8, counterexample: the constructor takes an arbitrary initial
total — `new(100, …)` (the binary passes 100 per configured validator)
caches total 100 over an empty stake table — and re-registering an id adds
the full new stake to the cached total while replacing the table entry
(5 + 7 = 12 cached against a table summing to 7). -/
theorem total_stake_cache_mismatch_cex :
    (ConsensusManager.new 100 2 3).total_stake = 100 ∧
    ConsensusManager.stakesSum (ConsensusManager.new 100 2 3).validators_stakes = 0 ∧
    ¬ stakeInv (ConsensusManager.new 100 2 3) ∧
    ¬ stakeInv (((ConsensusManager.new 0 2 3).register_validator "a" 5).register_validator
        "a" 7) := by
  decide

/-- Claim C8, amended: the cached-total invariant holds for construction
with initial total 0, is preserved by registration of a fresh validator id,
and is preserved by a proposer reward when the proposer is registered (in
each case absent `u64` overflow); construction with a nonzero initial total
and re-registration of an existing id violate it. -/
theorem stake_invariant_preservation :
    (∀ num den, stakeInv (ConsensusManager.new 0 num den)) ∧
    (∀ m id stake, stakeInv m → mapLookup m.validators_stakes id = none →
      m.total_stake + stake < u64Lim →
      stakeInv (m.register_validator id stake)) ∧
    (∀ m p reward s, stakeInv m → mapLookup m.validators_stakes p = some s →
      s + reward ≤ u64Max → m.total_stake + reward < u64Lim →
      stakeInv (m.award_proposer p reward)) := by
  refine ⟨?_, ?_, ?_⟩
  · intro num den
    rfl
  · intro m id stake hinv hfresh hlt
    unfold stakeInv at hinv ⊢
    simp only [ConsensusManager.register_validator]
    rw [stakesSum_mapInsert_none _ _ _ hfresh, wrapAdd_of_lt hlt, hinv]
  · intro m p reward s hinv hs hsat hlt
    unfold stakeInv at hinv ⊢
    simp only [ConsensusManager.award_proposer, hs]
    rw [wrapAdd_of_lt hlt, satAdd_of_le hsat]
    have hsum := stakesSum_mapInsert_some m.validators_stakes p (s + reward) s hs
    omega

/-- Witness for the amended C8: registering the fresh id `a` on the empty
engine preserves the invariant. -/
theorem stake_invariant_preservation_witness :
    stakeInv ((ConsensusManager.new 0 2 3).register_validator "a" 5) :=
  stake_invariant_preservation.2.1 (ConsensusManager.new 0 2 3) "a" 5
    (stake_invariant_preservation.1 2 3) rfl (by decide)

/-- Claim C9: the token returned by `register_agent` authenticates — within
its 24-hour validity — as exactly the agent id returned by that same
registration (yielding the freshly stored record), and authenticating any
token never yields a different agent's identity: the returned record's id
is always the agent id embedded in the token's signed claims. -/
theorem register_then_authenticate (st : ApiState) (freshId : String)
    (now now' : Nat) (hnow : now' < now + 24 * 3600) :
    (get_agent_from_request (register_agent st freshId now).2
        (register_agent st freshId now).1.auth_token now' =
      Except.ok { id := freshId, stake := 100, performance_score := 1,
                  total_blocks_produced := 0, total_votes_submitted := 0,
                  successful_validations := 0 } ∧
      (register_agent st freshId now).1.agent_id = freshId) ∧
    (∀ tok ag n, agentsInv st →
      get_agent_from_request st tok n = Except.ok ag → ag.id = tok.claims.agent_id) := by
  constructor
  · constructor
    · simp [register_agent, get_agent_from_request, decodeToken, encodeToken,
        mapLookup_mapInsert_self, hnow]
    · rfl
  · intro tok ag n hinv hok
    unfold get_agent_from_request at hok
    cases hdec : decodeToken tok st.jwt_key n with
    | error e => simp [hdec] at hok
    | ok c =>
        obtain ⟨hc, _⟩ := decodeToken_ok hdec
        subst hc
        simp only [hdec] at hok
        cases hlook : mapLookup st.agents tok.claims.agent_id with
        | none => simp [hlook] at hok
        | some a =>
            simp only [hlook] at hok
            have ha : a = ag := by
              injection hok
            subst ha
            exact hinv _ _ hlook

/-- Witness for C9: registering `a` on an empty gateway state and
authenticating with the returned token immediately yields the stored
record for `a`. -/
theorem register_then_authenticate_witness :
    get_agent_from_request (register_agent { agents := [], jwt_key := "k" } "a" 0).2
        (register_agent { agents := [], jwt_key := "k" } "a" 0).1.auth_token 0 =
      Except.ok { id := "a", stake := 100, performance_score := 1,
                  total_blocks_produced := 0, total_votes_submitted := 0,
                  successful_validations := 0 } :=
  ((register_then_authenticate { agents := [], jwt_key := "k" } "a" 0 0 (by decide)).1).1

/-- Claim C10: the engine's decision is independent of the stake argument —
two `add_vote` calls differing only in the stake argument return the same
outcome and the same post-state, since the approving stake is recomputed
from the registered stake table; a voter absent from that table contributes
zero to the approving stake, and an accepted vote never produces an
unknown-voter error (the outcome is `Ok(true)` or `InsufficientStake`). -/
theorem add_vote_stake_argument_independent (m : ConsensusManager) (vote : Vote)
    (s1 s2 reward : Nat) :
    m.add_vote vote s1 reward = m.add_vote vote s2 reward ∧
    (mapLookup m.validators_stakes vote.agent_id = none →
      sumApproveStake m.validators_stakes (mapInsert m.votes vote.agent_id vote) =
        sumApproveStake m.validators_stakes m.votes) ∧
    (∀ block, m.current_block = some block → vote.block_hash = block.hash →
      (m.add_vote vote s1 reward).1 = Except.ok true ∨
      (m.add_vote vote s1 reward).1 = Except.error Error.insufficientStake) := by
  refine ⟨rfl, ?_, ?_⟩
  · intro habs
    exact sumApproveStake_mapInsert_stakeless _ _ _ _ habs
  · intro block hb hh
    rw [add_vote_unfold m vote s1 reward block hb hh]
    by_cases hc : ConsensusManager.thresholdStake m ≤
        ConsensusManager.approveStakeLoop m.validators_stakes 0
          (mapInsert m.votes vote.agent_id vote)
    · left
      simp [hc]
    · right
      simp [hc]

/-- Witness for C10 at `mC2`: the sub-threshold vote of `w` with stake
argument 10 and with stake argument 999999 produce identical results, and
the accepted vote's outcome is one of the two engine outcomes. -/
theorem add_vote_stake_argument_independent_witness :
    mC2.add_vote voteW 10 5 = mC2.add_vote voteW 999999 5 ∧
    ((mC2.add_vote voteW 10 5).1 = Except.ok true ∨
      (mC2.add_vote voteW 10 5).1 = Except.error Error.insufficientStake) :=
  ⟨(add_vote_stake_argument_independent mC2 voteW 10 999999 5).1,
   (add_vote_stake_argument_independent mC2 voteW 10 999999 5).2.2 sampleBlock rfl rfl⟩

end ChaosChain
